import Mathlib

/-!
Verification of the audit-proof anchoring pipeline of The-Pursuit-of-Fairness.

Two components are embedded, straight from the source:

1. the Move ledger contract `0x0::oracle` (structs `AuditProof` and
   `AuditTable`, entry functions `init_table`, `anchor_audit`, and the view
   `proof_count`);
2. the Node storage-adapter script (`extractJson`, `parseWalrus`, `upload`,
   and the `process.argv[2]` entry guard), together with the library
   behaviour it leans on: the SGR colour-code regex replace, the
   first-match semantics of `String.prototype.match` on the pattern
   bracket, whitespace, brace, anything, brace, whitespace, bracket,
   `JSON.parse`, property access on JavaScript values (including the
   TypeError on reading a property of `undefined`), truthiness, template
   string interpolation, and `JSON.stringify` (which omits fields whose
   value is `undefined`).

Strings are modelled as `List Char`; JavaScript numbers are modelled
exactly as a decimal mantissa and exponent pair (no binary floating
point rounding is applied; no theorem below depends on a numeric value).
-/

/-! ## Ledger contract, from `module 0x0::oracle` -/

/-- One audit entry stored on-chain (struct `AuditProof`).
`bundle_hash` is a `vector<u8>`, modelled as a list of naturals;
`fairness_score` and `timestamp` are `u64` values that are only ever
stored, never computed with, so they are modelled as naturals. -/
structure AuditProof where
  bundle_hash : List Nat
  fairness_score : Nat
  timestamp : Nat
deriving DecidableEq

/-- Shared table storing all proofs (struct `AuditTable`).  `id` models the
`object::UID` identity. -/
structure AuditTable where
  id : Nat
  proofs : List AuditProof
deriving DecidableEq

/-- `init_table`: creates the shared table with an empty proof vector.  The
`TxContext` only serves to mint the fresh object id, so it is modelled as
the id it mints. -/
def init_table (ctx : Nat) : AuditTable :=
  { id := ctx, proofs := [] }

/-- `anchor_audit`: builds an `AuditProof` from the three arguments verbatim
and pushes it at the back of `table.proofs`. -/
def anchor_audit (table : AuditTable) (bundle_hash : List Nat)
    (fairness_score : Nat) (timestamp : Nat) : AuditTable :=
  { table with
    proofs := table.proofs ++
      [{ bundle_hash := bundle_hash, fairness_score := fairness_score,
         timestamp := timestamp }] }

/-- `proof_count`: length of the proof vector. -/
def proof_count (table : AuditTable) : Nat :=
  table.proofs.length

/-- A sequence of `anchor_audit` calls (hash, score, timestamp), applied one
at a time in submission order. -/
def applyCalls (table : AuditTable) (calls : List (List Nat × Nat × Nat)) :
    AuditTable :=
  calls.foldl (fun tb c => anchor_audit tb c.1 c.2.1 c.2.2) table

/-- The two operations the ledger module exposes on an existing table. -/
inductive LedgerOp : Type where
  | anchor (bundle_hash : List Nat) (fairness_score : Nat) (timestamp : Nat)
  | count

/-- Effect of one ledger operation: the table afterwards, and the value
returned (only `proof_count` returns one). -/
def applyLedgerOp (table : AuditTable) : LedgerOp → AuditTable × Option Nat
  | .anchor h s ts => (anchor_audit table h s ts, none)
  | .count => (table, some (proof_count table))

/-! ## JSON values and `JSON.parse`

The adapter calls `JSON.parse` on the extracted substring.  `Json` is the
parse result; object fields keep their textual order, and `jsObjGet`
returns the last binding of a key, as a JavaScript object built from a
literal with duplicate keys would. -/

inductive Json : Type where
  | null : Json
  | bool (b : Bool) : Json
  | num (mantissa : Int) (exp10 : Int) : Json
  | str (s : String) : Json
  | arr (elems : List Json) : Json
  | obj (fields : List (String × Json)) : Json

/-- JSON whitespace (RFC 8259, what `JSON.parse` skips). -/
def isJsonWs (c : Char) : Bool :=
  c = ' ' || c = '\t' || c = '\n' || c = '\r'

def isHexCh (c : Char) : Bool :=
  c.isDigit || ('a' ≤ c && c ≤ 'f') || ('A' ≤ c && c ≤ 'F')

def hexVal (c : Char) : Nat :=
  if c.isDigit then c.toNat - 48
  else if 'a' ≤ c && c ≤ 'f' then c.toNat - 87
  else c.toNat - 55

/-- Body of a JSON string literal, after the opening quote: the decoded
characters and the remainder after the closing quote.  Handles the JSON
escapes and rejects raw control characters, as `JSON.parse` does. -/
def parseStrBody : List Char → Option (List Char × List Char)
  | [] => none
  | c :: rest =>
    if c = '"' then some ([], rest)
    else if c = '\\' then
      match rest with
      | [] => none
      | e :: r0 =>
        if e = '"' then (parseStrBody r0).map (fun p => ('"' :: p.1, p.2))
        else if e = '\\' then (parseStrBody r0).map (fun p => ('\\' :: p.1, p.2))
        else if e = '/' then (parseStrBody r0).map (fun p => ('/' :: p.1, p.2))
        else if e = 'b' then (parseStrBody r0).map (fun p => ('\x08' :: p.1, p.2))
        else if e = 'f' then (parseStrBody r0).map (fun p => ('\x0c' :: p.1, p.2))
        else if e = 'n' then (parseStrBody r0).map (fun p => ('\n' :: p.1, p.2))
        else if e = 'r' then (parseStrBody r0).map (fun p => ('\r' :: p.1, p.2))
        else if e = 't' then (parseStrBody r0).map (fun p => ('\t' :: p.1, p.2))
        else if e = 'u' then
          match r0 with
          | a :: b :: c2 :: d :: r =>
            if isHexCh a && isHexCh b && isHexCh c2 && isHexCh d then
              let v := 4096 * hexVal a + 256 * hexVal b + 16 * hexVal c2 + hexVal d
              (parseStrBody r).map (fun p => (Char.ofNat (v % 1114112) :: p.1, p.2))
            else none
          | _ => none
        else none
    else if c.toNat < 32 then none
    else (parseStrBody rest).map (fun p => (c :: p.1, p.2))

/-- Decimal value of a digit run. -/
def digitsVal (l : List Char) : Nat :=
  l.foldl (fun a c => 10 * a + (c.toNat - 48)) 0

/-- A JSON number literal: optional sign, integer part (no redundant
leading zero), optional fraction, optional exponent.  The value is kept
exactly as mantissa times ten to the `exp10`. -/
def parseNum (cs : List Char) : Option (Json × List Char) :=
  let (negSign, cs1) :=
    match cs with
    | '-' :: r => (true, r)
    | _ => (false, cs)
  let intDigits := cs1.takeWhile Char.isDigit
  let cs2 := cs1.dropWhile Char.isDigit
  if intDigits.isEmpty then none
  else if intDigits.length > 1 && intDigits.headI = '0' then none
  else
    let (fracDigits, cs3) :=
      match cs2 with
      | '.' :: r => (r.takeWhile Char.isDigit, r.dropWhile Char.isDigit)
      | _ => ([], cs2)
    if cs2 ≠ cs3 && fracDigits.isEmpty then none
    else
      let mantNat := digitsVal (intDigits ++ fracDigits)
      let mant : Int := if negSign then -(mantNat : Int) else (mantNat : Int)
      match cs3 with
      | 'e' :: r | 'E' :: r =>
        let (eneg, r1) :=
          match r with
          | '+' :: r2 => (false, r2)
          | '-' :: r2 => (true, r2)
          | _ => (false, r)
        let eDigits := r1.takeWhile Char.isDigit
        if eDigits.isEmpty then none
        else
          let ev : Int := (digitsVal eDigits : Int)
          some (.num mant ((if eneg then -ev else ev) - (fracDigits.length : Int)),
            r1.dropWhile Char.isDigit)
      | _ => some (.num mant (-(fracDigits.length : Int)), cs3)

/-- Comma-separated JSON values up to a closing bracket.  `pv` parses one
value; the fuel bounds the number of elements and is instantiated with the
input length, which suffices because every element consumes at least one
character. -/
def parseSeqAux (pv : List Char → Option (Json × List Char)) :
    Nat → List Char → Option (List Json × List Char)
  | 0, _ => none
  | g + 1, cs => do
    let (v, r) ← pv cs
    let r1 := r.dropWhile isJsonWs
    match r1 with
    | c :: r2 =>
      if c = ',' then
        (parseSeqAux pv g (r2.dropWhile isJsonWs)).map (fun p => (v :: p.1, p.2))
      else if c = ']' then some ([v], r2)
      else none
    | [] => none

/-- Comma-separated JSON object members up to the closing brace. -/
def parseMembersAux (pv : List Char → Option (Json × List Char)) :
    Nat → List Char → Option (List (String × Json) × List Char)
  | 0, _ => none
  | g + 1, cs =>
    match cs with
    | [] => none
    | c :: r =>
      if c = '"' then do
        let (k, r1) ← parseStrBody r
        match r1.dropWhile isJsonWs with
        | [] => none
        | c2 :: r2 =>
          if c2 = ':' then do
            let (v, r3) ← pv (r2.dropWhile isJsonWs)
            match r3.dropWhile isJsonWs with
            | [] => none
            | c3 :: r4 =>
              if c3 = ',' then
                (parseMembersAux pv g (r4.dropWhile isJsonWs)).map
                  (fun p => ((⟨k⟩, v) :: p.1, p.2))
              else if c3 = '\x7d' then some ([(⟨k⟩, v)], r4)
              else none
          else none
      else none

/-- One JSON value.  The fuel bounds the nesting depth and is instantiated
with the input length plus one, which suffices because entering a nested
value consumes at least one character. -/
def parseVal : Nat → List Char → Option (Json × List Char)
  | 0, _ => none
  | f + 1, cs0 =>
    match cs0.dropWhile isJsonWs with
    | [] => none
    | c :: rest =>
      if c = '[' then
        match rest.dropWhile isJsonWs with
        | [] => none
        | c2 :: r2 =>
          if c2 = ']' then some (.arr [], r2)
          else (parseSeqAux (parseVal f) (r2.length + 2) (c2 :: r2)).map
            (fun p => (.arr p.1, p.2))
      else if c = '\x7b' then
        match rest.dropWhile isJsonWs with
        | [] => none
        | c2 :: r2 =>
          if c2 = '\x7d' then some (.obj [], r2)
          else (parseMembersAux (parseVal f) (r2.length + 2) (c2 :: r2)).map
            (fun p => (.obj p.1, p.2))
      else if c = '"' then (parseStrBody rest).map (fun p => (.str ⟨p.1⟩, p.2))
      else if c = 't' then
        match rest with
        | c1 :: c2 :: c3 :: r =>
          if c1 = 'r' && c2 = 'u' && c3 = 'e' then some (.bool true, r) else none
        | _ => none
      else if c = 'f' then
        match rest with
        | c1 :: c2 :: c3 :: c4 :: r =>
          if c1 = 'a' && c2 = 'l' && c3 = 's' && c4 = 'e' then
            some (.bool false, r)
          else none
        | _ => none
      else if c = 'n' then
        match rest with
        | c1 :: c2 :: c3 :: r =>
          if c1 = 'u' && c2 = 'l' && c3 = 'l' then some (.null, r) else none
        | _ => none
      else parseNum (c :: rest)

/-- `JSON.parse`: one value, nothing but whitespace after it. -/
def jsonParse (cs : List Char) : Option Json :=
  match parseVal (cs.length + 1) cs with
  | some (j, rest) => if (rest.dropWhile isJsonWs).isEmpty then some j else none
  | none => none

/-! ## JavaScript values, property access, truthiness, stringification

`parseWalrus` reads properties off the parse result and interpolates them
into template strings, so the embedding needs the surrounding JavaScript
semantics: a value is either a parsed JSON value or `undefined`; reading a
property of `undefined` or `null` throws a TypeError; reading an absent
property, or any named property of a primitive or an array, yields
`undefined`. -/

inductive JsVal : Type where
  | undefined : JsVal
  | json (j : Json) : JsVal

/-- Last binding of `key` in an object, as JavaScript keeps for duplicate
keys in a literal. -/
def jsObjGet (fields : List (String × Json)) (key : String) : Option Json :=
  (fields.reverse.find? (fun p => p.1 = key)).map (fun p => p.2)

/-- The failure modes of the adapter.  `noJson` carries the sanitized captured
output the thrown message embeds; `badJson` is the SyntaxError thrown by
`JSON.parse`; `typeError` is the TypeError thrown by reading a property
(named by `key`) of `undefined` or `null`; `unsupported` is the explicit
Unsupported-Walrus-JSON-format error and carries the result value whose
stringification the message embeds. -/
inductive StoreErr : Type where
  | noJson (sanitized : String)
  | badJson (block : String)
  | typeError (key : String)
  | unsupported (result : JsVal)

/-- JavaScript property read `v.key`. -/
def jsGet (v : JsVal) (key : String) : Except StoreErr JsVal :=
  match v with
  | .undefined => .error (.typeError key)
  | .json .null => .error (.typeError key)
  | .json (.obj fields) =>
    match jsObjGet fields key with
    | some j => .ok (.json j)
    | none => .ok .undefined
  | .json _ => .ok .undefined

/-- JavaScript index read `v[0]`. -/
def jsIndex0 (j : Json) : JsVal :=
  match j with
  | .arr (x :: _) => .json x
  | _ => .undefined

/-- JavaScript truthiness. -/
def truthy (v : JsVal) : Bool :=
  match v with
  | .undefined => false
  | .json .null => false
  | .json (.bool b) => b
  | .json (.num m _) => m ≠ 0
  | .json (.str s) => s ≠ ""
  | .json (.arr _) => true
  | .json (.obj _) => true

/-- Decimal rendering of a mantissa-and-exponent number, used both by
template interpolation and by `JSON.stringify`.  Integers render exactly;
for a negative exponent the digits are rendered with a decimal point
(without the float round-tripping a JavaScript engine would apply — no
theorem below depends on it). -/
def numToStr (m e : Int) : String :=
  if 0 ≤ e then toString (m * 10 ^ e.toNat)
  else
    let k := (-e).toNat
    let digits := (Nat.repr m.natAbs).data
    let padded :=
      if digits.length ≤ k then List.replicate (k + 1 - digits.length) '0' ++ digits
      else digits
    let cut := padded.length - k
    (if m < 0 then ("-") else ("")) ++ ⟨padded.take cut⟩ ++ "." ++ ⟨padded.drop cut⟩

mutual

/-- JavaScript ToString of a parsed JSON value, as template interpolation
applies it: strings verbatim, arrays joined with commas, objects as
`[object Object]`. -/
def jsToStrJson : Json → String
  | .null => "null"
  | .bool true => "true"
  | .bool false => "false"
  | .num m e => numToStr m e
  | .str s => s
  | .arr l => jsToStrList l
  | .obj _ => "[object Object]"

/-- `Array.prototype.join`: `null` elements render empty. -/
def jsToStrList : List Json → String
  | [] => ""
  | [x] => match x with
    | .null => ""
    | j => jsToStrJson j
  | x :: y :: xs =>
    (match x with
     | .null => ""
     | j => jsToStrJson j) ++ "," ++ jsToStrList (y :: xs)

end

/-- Template interpolation of a JavaScript value. -/
def jsToStr (v : JsVal) : String :=
  match v with
  | .undefined => "undefined"
  | .json j => jsToStrJson j

/-- JSON string escaping, as `JSON.stringify` applies to a string value. -/
def escChar (c : Char) : List Char :=
  if c = '"' then ['\\', '"']
  else if c = '\\' then ['\\', '\\']
  else if c = '\n' then ['\\', 'n']
  else if c = '\r' then ['\\', 'r']
  else if c = '\t' then ['\\', 't']
  else if c = '\x08' then ['\\', 'b']
  else if c = '\x0c' then ['\\', 'f']
  else if c.toNat < 32 then
    let ds := Nat.toDigits 16 c.toNat
    '\\' :: 'u' :: '0' :: '0' :: ds.drop (ds.length - 2)
  else [c]

def jsonQuote (s : String) : String :=
  ⟨'"' :: (s.data.flatMap escChar ++ ['"'])⟩

mutual

/-- `JSON.stringify` of a defined value (no indentation argument). -/
def stringifyJson : Json → String
  | .null => "null"
  | .bool true => "true"
  | .bool false => "false"
  | .num m e => numToStr m e
  | .str s => jsonQuote s
  | .arr l => "[" ++ stringifyArr l ++ "]"
  | .obj l => "\x7b" ++ stringifyObj l ++ "\x7d"

def stringifyArr : List Json → String
  | [] => ""
  | [x] => stringifyJson x
  | x :: y :: xs => stringifyJson x ++ "," ++ stringifyArr (y :: xs)

def stringifyObj : List (String × Json) → String
  | [] => ""
  | [(k, v)] => jsonQuote k ++ ":" ++ stringifyJson v
  | (k, v) :: y :: xs =>
    jsonQuote k ++ ":" ++ stringifyJson v ++ "," ++ stringifyObj (y :: xs)

end

/-! ## Output sanitation and extraction, from `extractJson`

The script first removes SGR colour codes — the global replace of
escape, bracket, a run of digits and semicolons, letter m — and then takes
the first match of the regex bracket, whitespace, brace, anything
(greedy), brace, whitespace, bracket. -/

/-- After an escape and a bracket: a run of digits and semicolons closed by
the letter m, returning the remainder; `none` when the run is not closed
by an m, in which case the replace keeps scanning one character further
on. -/
def sgrParams : List Char → Option (List Char)
  | [] => none
  | c :: rest =>
    if c = 'm' then some rest
    else if c.isDigit || c = ';' then sgrParams rest
    else none

/-- One pass of the global SGR replace.  The fuel only needs to reach the
input length: every step consumes at least one character. -/
def stripAnsiF : Nat → List Char → List Char
  | _, [] => []
  | 0, cs => cs
  | f + 1, c :: cs =>
    if c = '\x1b' then
      match cs with
      | '[' :: cs2 =>
        match sgrParams cs2 with
        | some rest => stripAnsiF f rest
        | none => c :: stripAnsiF f cs
      | _ => c :: stripAnsiF f cs
    else c :: stripAnsiF f cs

/-- `output.replace` of the SGR pattern by the empty string. -/
def stripAnsi (cs : List Char) : List Char :=
  stripAnsiF cs.length cs

/-- JavaScript regex whitespace (the ASCII part of backslash-s). -/
def isRegexWs (c : Char) : Bool :=
  c = ' ' || c = '\t' || c = '\n' || c = '\r' || c = '\x0b' || c = '\x0c'

/-- Does the array pattern match at this position, and with what length of
matched head: a bracket, a whitespace run, a brace. -/
def headMatchLen (cs : List Char) : Option Nat :=
  match cs with
  | [] => none
  | c :: rest =>
    if c = '[' then
      match rest.dropWhile isRegexWs with
      | c2 :: _ =>
        if c2 = '\x7b' then some (2 + (rest.takeWhile isRegexWs).length)
        else none
      | [] => none
    else none

/-- Leftmost position at which the head of the pattern matches, returned as
the suffix starting there. -/
def findStart : List Char → Option (List Char)
  | [] => none
  | c :: cs =>
    if (headMatchLen (c :: cs)).isSome then some (c :: cs) else findStart cs

/-- On the reversed tail: offset of the first closing bracket that is
preceded (in reading order) by a brace and whitespace only — that is, of
the last such bracket in reading order, which is where the greedy middle
stops. -/
def endRevAux : List Char → Option Nat
  | [] => none
  | c :: rest =>
    if c = ']' then
      match rest.dropWhile isRegexWs with
      | c2 :: _ =>
        if c2 = '\x7d' then some 0 else (endRevAux rest).map (· + 1)
      | [] => (endRevAux rest).map (· + 1)
    else (endRevAux rest).map (· + 1)

/-- First match of the array regex, as `output.match(...)[0]`.

The match starts at the leftmost position whose head matches — earlier
positions lack the opening bracket-whitespace-brace and can never match.
From that head, the greedy middle runs to the last closing bracket that
has a brace behind whitespace before it; such a position lies after this
head's brace exactly when one lies anywhere after it, and any later
starting position only sees a subset of those closers, so when none exists
the whole regex fails and `none` is faithful. -/
def extractBlock (s : List Char) : Option (List Char) :=
  match findStart s with
  | none => none
  | some u =>
    match headMatchLen u with
    | none => none
    | some hl =>
      let t := u.drop hl
      match endRevAux t.reverse with
      | none => none
      | some i => some (u.take (hl + (t.length - i)))

/-! ## The adapter, from `extractJson`, `parseWalrus`, `upload` -/

/-- The receipt `parseWalrus` returns.  `blobId` and `objectId` hold the
values read off the blob object (which the script does not validate, so
they may be any JavaScript value, `undefined` included); the two URLs are
template strings and therefore always strings. -/
structure Receipt where
  blobId : JsVal
  objectId : JsVal
  walrusURL : String
  objectURL : String

/-- `extractJson(output)`: strip the colour codes, take the first regex
match, `JSON.parse` it; the two throw sites become the two error values. -/
def extractJson (output : List Char) : Except StoreErr Json :=
  let out := stripAnsi output
  match extractBlock out with
  | none => .error (.noJson ⟨out⟩)
  | some block =>
    match jsonParse block with
    | none => .error (.badJson ⟨block⟩)
    | some j => .ok j

/-- `parseWalrus(jsonArray)`: first element, its `blobStoreResult`; when
`newlyCreated` is truthy, read the blob object's `blobId` and `id` and
template the two explorer links; otherwise throw the unsupported-format
error. -/
def parseWalrus (jsonArray : Json) : Except StoreErr Receipt := do
  let entry := jsIndex0 jsonArray
  let result ← jsGet entry ("blobStoreResult")
  let nc ← jsGet result ("newlyCreated")
  if truthy nc then do
    let x ← jsGet nc ("blobObject")
    let b ← jsGet x ("blobId")
    let o ← jsGet x ("id")
    pure { blobId := b, objectId := o,
           walrusURL := "https://walruscan.com/testnet/blob/" ++ jsToStr b,
           objectURL := "https://walruscan.com/testnet/object/" ++ jsToStr o }
  else .error (.unsupported result)

/-- The store operation on a captured tool output: `extractJson` then
`parseWalrus`, the composition `upload` runs inside its try block. -/
def storePipeline (raw : String) : Except StoreErr Receipt :=
  match extractJson raw.data with
  | .error e => .error e
  | .ok j => parseWalrus j

/-- The fields `JSON.stringify` serializes from the `final` object: the
four fields in literal order, except that a field whose value is
`undefined` is omitted (the two URL fields are template strings and are
always present). -/
def definedFields (r : Receipt) : List (String × Json) :=
  (match r.blobId with
   | .undefined => []
   | .json j => [("blobId", j)]) ++
  (match r.objectId with
   | .undefined => []
   | .json j => [("objectId", j)]) ++
  [("walrusURL", .str r.walrusURL), ("objectURL", .str r.objectURL)]

/-- `JSON.stringify` of the `final` object. -/
def stringifyFinal (r : Receipt) : String :=
  stringifyJson (.obj (definedFields r))

/-- The diagnostic text of a thrown error, as `console.error` renders it
(name and message; the engine-specific stack and quoting are abbreviated). -/
def errText : StoreErr → String
  | .noJson sanitized => "Error: No JSON returned by walrus\n" ++ sanitized
  | .badJson _ => "SyntaxError: Unexpected token in JSON"
  | .typeError key =>
    "TypeError: Cannot read properties of undefined (reading " ++ key ++ ")"
  | .unsupported result =>
    "Error: Unsupported Walrus JSON format: " ++
      (match result with
       | .undefined => "undefined"
       | .json j => stringifyJson j)

/-- Observable behaviour of one script run: how many subprocesses it
spawned, the lines written to standard output and to the error stream, and
the exit status. -/
structure Trace where
  spawns : Nat
  stdout : List String
  stderr : List String
  exitCode : Nat
deriving DecidableEq

/-- `upload(filePath)`.  `path.resolve` is modelled as the identity on the
given path (resolution against the working directory is outside the
model).  The walrus subprocess is the `tool` argument: `.ok raw` is its
captured output, `.error msg` an `execSync` throw for a non-zero tool
exit.  The first `console.log` line lands on standard output before the
try block runs; on any caught error the script prints the diagnostic and
exits with status one. -/
def upload (filePath : String) (tool : Except String String) : Trace :=
  let intro := "Uploading to Walrus Testnet: " ++ filePath
  match tool with
  | .error msg => ⟨1, [intro], ["Upload failed! " ++ msg], 1⟩
  | .ok raw =>
    match storePipeline raw with
    | .ok r => ⟨1, [intro, stringifyFinal r], [], 0⟩
    | .error e => ⟨1, [intro], ["Upload failed! " ++ errText e], 1⟩

/-- The script entry: `if (process.argv[2]) upload(process.argv[2])`.  No
argument, or an empty (falsy) one, runs nothing at all. -/
def runCli (argv2 : Option String) (tool : Except String String) : Trace :=
  match argv2 with
  | none => ⟨0, [], [], 0⟩
  | some fp => if fp = "" then ⟨0, [], [], 0⟩ else upload fp tool

/-! ## Concrete tool outputs used by the theorems below -/

/-- The fixed literal tool output sample: a newly created blob with blob id
`b64:ABC123` and object id `0xDEAD`. -/
def walrusSampleNewlyCreated : String :=
  "[\x7b\"blobStoreResult\":\x7b\"newlyCreated\":\x7b\"blobObject\":\x7b\"id\":\"0xDEAD\",\"registeredEpoch\":34,\"blobId\":\"b64:ABC123\"\x7d\x7d\x7d\x7d]"

/-- Tool output whose JSON parses but whose first element has no
`blobStoreResult` field at all. -/
def sampleMissingResult : String := "[\x7b\"foo\":1\x7d]"

/-- Tool output describing a deduplicated blob: `blobStoreResult` is
present but holds `alreadyCertified`, not `newlyCreated`. -/
def sampleAlreadyCertified : String :=
  "[\x7b\"blobStoreResult\":\x7b\"alreadyCertified\":\x7b\"blobId\":\"X\",\"eventOrObject\":\"e\"\x7d\x7d\x7d]"

/-- Colourized tool output with no JSON array in it. -/
def sampleAnsiNoJson : String := "\x1b[31mError!\x1b[0m"

/-- Plain tool output with no JSON array in it. -/
def samplePlainNoJson : String := "walrus failed: nothing stored"

/-- A newly created blob whose `blobId` and `id` are empty strings. -/
def sampleEmptyIds : String :=
  "[\x7b\"blobStoreResult\":\x7b\"newlyCreated\":\x7b\"blobObject\":\x7b\"blobId\":\"\",\"id\":\"\"\x7d\x7d\x7d\x7d]"

/-! ## The newly-created array shape, parametrized by the two identifiers -/

/-- The blob object of a newly-created result: blob id `b` and object id
`o` as its two string members, followed by the continuation `rest`. -/
def objDList (b o rest : List Char) : List Char :=
  '\x7b' :: '"' :: ("blobId".data ++ '"' :: ':' :: '"' ::
    (b ++ '"' :: ',' :: '"' :: ("id".data ++ '"' :: ':' :: '"' ::
      (o ++ '"' :: '\x7d' :: rest))))

/-- The object holding the blob object under `blobObject`. -/
def objCList (b o rest : List Char) : List Char :=
  '\x7b' :: '"' :: ("blobObject".data ++ '"' :: ':' ::
    objDList b o ('\x7d' :: rest))

/-- The object holding the previous one under `newlyCreated`. -/
def objBList (b o rest : List Char) : List Char :=
  '\x7b' :: '"' :: ("newlyCreated".data ++ '"' :: ':' ::
    objCList b o ('\x7d' :: rest))

/-- The first array element: the previous object under `blobStoreResult`. -/
def objAList (b o rest : List Char) : List Char :=
  '\x7b' :: '"' :: ("blobStoreResult".data ++ '"' :: ':' ::
    objBList b o ('\x7d' :: rest))

/-- A well-formed newly-created result array carrying blob id `b` and
object id `o`. -/
def coreChars (b o : List Char) : List Char :=
  '[' :: objAList b o [']']

/-- Flat view of `coreChars`: the text before the blob id value. -/
def coreA : List Char :=
  "[\x7b\"blobStoreResult\":\x7b\"newlyCreated\":\x7b\"blobObject\":\x7b\"blobId\":\"".data

/-- Flat view of `coreChars`: between the blob id and the object id. -/
def coreB : List Char := "\",\"id\":\"".data

/-- Flat view of `coreChars`: after the object id value. -/
def coreC : List Char := "\"\x7d\x7d\x7d\x7d]".data

/-- Identifier characters that interact with none of the three stages:
not a quote or backslash and not a control character (so the JSON string
literal reads them verbatim) and not a closing bracket (so the greedy
regex middle still stops at the array's own closer). -/
def safeChar (c : Char) : Bool :=
  !(c = '"' || c = '\\' || c = ']' || c.toNat < 32)

/-- The parse result of `coreChars b o`. -/
def coreJson (b o : List Char) : Json :=
  .arr [.obj [("blobStoreResult", .obj [("newlyCreated", .obj [("blobObject",
    .obj [("blobId", .str ⟨b⟩), ("id", .str ⟨o⟩)])])])]]

/-- The receipt `parseWalrus` builds from string identifiers. -/
def mkStrReceipt (bs os : String) : Receipt :=
  { blobId := .json (.str bs), objectId := .json (.str os),
    walrusURL := "https://walruscan.com/testnet/blob/" ++ bs,
    objectURL := "https://walruscan.com/testnet/object/" ++ os }

/-- ANSI-coloured log text preceding the array in the C5 witness. -/
def ansiPre : String := "\x1b[1;32mSuccess: stored blob\x1b[0m\n"

/-- ANSI-coloured log text following the array in the C5 witness. -/
def ansiPost : String := "\n\x1b[0mdone\n"

/-! ## Shared helper lemmas -/

theorem applyCalls_proofs (calls : List (List Nat × Nat × Nat)) :
    ∀ t : AuditTable, (applyCalls t calls).proofs =
      t.proofs ++ calls.map (fun c =>
        { bundle_hash := c.1, fairness_score := c.2.1, timestamp := c.2.2 : AuditProof }) := by
  induction calls with
  | nil => intro t; simp [applyCalls]
  | cons c cs ih =>
    intro t
    have h1 : applyCalls t (c :: cs) = applyCalls (anchor_audit t c.1 c.2.1 c.2.2) cs := rfl
    rw [h1, ih, anchor_audit]
    simp

/-- Claim C1: on the fixed literal tool output sample describing a newly
created blob with blob id b64:ABC123 and object id 0xDEAD, the store
operation returns the receipt holding exactly the two ids and the two
explorer URLs templated from the fixed base URL of the code. -/
theorem C1_store_fixed_sample :
    storePipeline walrusSampleNewlyCreated = .ok (mkStrReceipt ("b64:ABC123") ("0xDEAD")) := by
  rfl

/-- Claim C2 counterexample: a table already holding one proof reports a
count of two, not one, after a single further anchor call, so the count
after N calls does not equal N for every table. -/
theorem C2_counterexample :
    proof_count (applyCalls (anchor_audit (init_table 0) [] 0 0) [([], 0, 0)]) = 2 ∧
    ([([], 0, 0)] : List (List Nat × Nat × Nat)).length = 1 ∧ (2 : Nat) ≠ 1 := by
  exact ⟨rfl, rfl, by decide⟩

/-- Claim C2, amended: a freshly initialized table counts zero proofs, and
for every table and every sequence of anchor calls applied one at a time,
the count afterwards is the prior count plus the number of calls (hence
exactly N from a fresh table) and the stored sequence is the prior one
followed by the appended proofs in call order. -/
theorem C2_proof_count_adds_N :
    (∀ ctx, proof_count (init_table ctx) = 0) ∧
    (∀ (t : AuditTable) (calls : List (List Nat × Nat × Nat)),
      proof_count (applyCalls t calls) = proof_count t + calls.length ∧
      (applyCalls t calls).proofs = t.proofs ++ calls.map (fun c =>
        { bundle_hash := c.1, fairness_score := c.2.1, timestamp := c.2.2 : AuditProof })) := by
  refine ⟨fun ctx => rfl, fun t calls => ⟨?_, applyCalls_proofs calls t⟩⟩
  simp [proof_count, applyCalls_proofs calls t]

/-- Claim C7: for every table and all argument values, with no condition on
hash length, score bounds or timestamp ordering, anchor always succeeds
(it is a total function) and its only effect is appending the one proof
built verbatim from the three inputs, leaving the table id unchanged. -/
theorem C7_anchor_no_validation :
    ∀ (t : AuditTable) (h : List Nat) (s ts : Nat),
      (anchor_audit t h s ts).proofs =
        t.proofs ++ [{ bundle_hash := h, fairness_score := s, timestamp := ts }] ∧
      (anchor_audit t h s ts).id = t.id :=
  fun _ _ _ _ => ⟨rfl, rfl⟩

/-- Claim C8: the ledger is append-only — after either ledger operation the
prior proofs are an unchanged prefix of the new sequence (the new sequence
is the old one followed by some tail) and the length never decreases. -/
theorem C8_append_only :
    ∀ (t : AuditTable) (op : LedgerOp),
      (∃ tail, ((applyLedgerOp t op).1).proofs = t.proofs ++ tail) ∧
      t.proofs.length ≤ ((applyLedgerOp t op).1).proofs.length := by
  intro t op
  cases op with
  | anchor h s ts =>
    refine ⟨⟨[{ bundle_hash := h, fairness_score := s, timestamp := ts }], rfl⟩, ?_⟩
    simp [applyLedgerOp, anchor_audit]
  | count => exact ⟨⟨[], by simp [applyLedgerOp]⟩, le_rfl⟩

/-- Claim C10: invoked with no file-path argument the script spawns no
subprocess, writes nothing to standard output or the error stream, and
terminates successfully, whatever the external tool would have done. -/
theorem C10_no_arg_no_work :
    ∀ tool : Except String String, runCli none tool = ⟨0, [], [], 0⟩ :=
  fun _ => rfl

theorem excBindOk {a b : Type} (v : a) (f : a → Except StoreErr b) :
    (Except.ok v >>= f : Except StoreErr b) = f v := rfl

/-- Claim C3 counterexample: a tool output whose JSON parses but whose
first element has no blobStoreResult field fails with the TypeError of a
property read on undefined, not with the unsupported-shape error. -/
theorem C3_counterexample :
    extractJson sampleMissingResult.data = .ok (.arr [.obj [("foo", .num 1 0)]]) ∧
    storePipeline sampleMissingResult = .error (.typeError ("newlyCreated")) ∧
    ∀ v, storePipeline sampleMissingResult ≠ .error (.unsupported v) := by
  refine ⟨rfl, rfl, ?_⟩
  intro v h
  rw [show storePipeline sampleMissingResult = .error (.typeError ("newlyCreated")) from rfl] at h
  simp at h

/-- Claim C3, amended: when the extracted JSON parses and the first element
carries a blobStoreResult value whose newlyCreated field is falsy, store
fails with the distinct unsupported-shape error carrying that result value
and returns no receipt; a missing blobStoreResult instead raises a
TypeError. -/
theorem C3_unsupported_shape (raw : String) (j r : Json) (nc : JsVal)
    (hj : extractJson raw.data = .ok j)
    (hr : jsGet (jsIndex0 j) "blobStoreResult" = .ok (.json r))
    (hnc : jsGet (.json r) ("newlyCreated") = .ok nc)
    (hf : truthy nc = false) :
    storePipeline raw = .error (.unsupported (.json r)) := by
  have hsp : storePipeline raw = parseWalrus j := by
    unfold storePipeline
    rw [hj]
  rw [hsp]
  simp only [parseWalrus]
  rw [hr, excBindOk, hnc, excBindOk, hf]
  simp

/-- Claim C3 witness: an already-certified result triggers exactly the
unsupported-shape failure. -/
theorem C3_unsupported_shape_witness :
    storePipeline sampleAlreadyCertified =
      .error (.unsupported (.json (.obj [("alreadyCertified",
        .obj [("blobId", .str ("X")), ("eventOrObject", .str ("e"))])]))) :=
  C3_unsupported_shape sampleAlreadyCertified
    (.arr [.obj [("blobStoreResult", .obj [("alreadyCertified",
      .obj [("blobId", .str ("X")), ("eventOrObject", .str ("e"))])])]])
    (.obj [("alreadyCertified", .obj [("blobId", .str ("X")), ("eventOrObject", .str ("e"))])])
    .undefined rfl rfl rfl rfl

/-- Claim C4 counterexample: for colourized output with no JSON, the
reported error carries the sanitized text, which differs from the raw
captured output. -/
theorem C4_counterexample :
    storePipeline sampleAnsiNoJson = .error (.noJson ("Error!")) ∧
    ("Error!" : String) ≠ sampleAnsiNoJson := by
  exact ⟨rfl, by decide⟩

/-- Claim C4, amended: whenever the sanitized output contains no match of
the array pattern, store fails with the no-JSON error kind, carrying the
ANSI-sanitized captured output as diagnostic detail, and returns no
receipt. -/
theorem C4_no_json_found (raw : String)
    (h : extractBlock (stripAnsi raw.data) = none) :
    storePipeline raw = .error (.noJson ⟨stripAnsi raw.data⟩) := by
  unfold storePipeline
  simp only [extractJson]
  rw [h]

/-- Claim C4 witness: plain output with no JSON array fails with the
no-JSON error carrying that output. -/
theorem C4_no_json_found_witness :
    storePipeline samplePlainNoJson = .error (.noJson ⟨stripAnsi samplePlainNoJson.data⟩) :=
  C4_no_json_found samplePlainNoJson (by rfl)

/-- Claim C6 counterexample: a fully successful store call writes two lines
to standard output — the progress line and then the receipt JSON — so the
output is never the single JSON line alone. -/
theorem C6_counterexample :
    upload ("f.csv") (.ok walrusSampleNewlyCreated) =
      ⟨1, ["Uploading to Walrus Testnet: f.csv",
           stringifyFinal (mkStrReceipt ("b64:ABC123") ("0xDEAD"))], [], 0⟩ ∧
    (upload ("f.csv") (.ok walrusSampleNewlyCreated)).exitCode = 0 ∧
    (upload ("f.csv") (.ok walrusSampleNewlyCreated)).stdout.length ≠ 1 := by
  exact ⟨rfl, rfl, by decide⟩

theorem excBindErr {a b : Type} (e : StoreErr) (f : a → Except StoreErr b) :
    (Except.error e >>= f : Except StoreErr b) = Except.error e := rfl

theorem append_ne_empty (pre s : String) (hp : pre.length ≠ 0) : pre ++ s ≠ "" := by
  intro h
  have hl := congrArg String.length h
  rw [String.length_append] at hl
  simp at hl
  omega

/-- Claim C6, amended: on success the script writes the progress line and
then a single-line JSON object which, whenever the two parsed ids are
strings, serializes exactly the four receipt fields in order; on a parse
failure, and on a tool failure, it writes the progress line to standard
output, one diagnostic line to the error stream, and exits with status
one. -/
theorem C6_trace_shape (fp : String) (tool : Except String String) :
    (∀ raw r bs os, tool = .ok raw → storePipeline raw = .ok r →
      r.blobId = .json (.str bs) → r.objectId = .json (.str os) →
      upload fp tool =
        ⟨1, ["Uploading to Walrus Testnet: " ++ fp, stringifyFinal r], [], 0⟩ ∧
      stringifyFinal r = stringifyJson (.obj [("blobId", .str bs),
        ("objectId", .str os), ("walrusURL", .str r.walrusURL),
        ("objectURL", .str r.objectURL)])) ∧
    (∀ raw e, tool = .ok raw → storePipeline raw = .error e →
      upload fp tool = ⟨1, ["Uploading to Walrus Testnet: " ++ fp],
        ["Upload failed! " ++ errText e], 1⟩) ∧
    (∀ msg, tool = .error msg →
      upload fp tool = ⟨1, ["Uploading to Walrus Testnet: " ++ fp],
        ["Upload failed! " ++ msg], 1⟩) := by
  refine ⟨?_, ?_, ?_⟩
  · intro raw r bs os htool hsp hb ho
    subst htool
    have h1 : upload fp (.ok raw) =
        match storePipeline raw with
        | .ok r =>
          ⟨1, ["Uploading to Walrus Testnet: " ++ fp, stringifyFinal r], [], 0⟩
        | .error e => ⟨1, ["Uploading to Walrus Testnet: " ++ fp],
            ["Upload failed! " ++ errText e], 1⟩ := rfl
    rw [h1, hsp]
    refine ⟨rfl, ?_⟩
    simp [stringifyFinal, definedFields, hb, ho]
  · intro raw e htool hsp
    subst htool
    have h1 : upload fp (.ok raw) =
        match storePipeline raw with
        | .ok r =>
          ⟨1, ["Uploading to Walrus Testnet: " ++ fp, stringifyFinal r], [], 0⟩
        | .error e => ⟨1, ["Uploading to Walrus Testnet: " ++ fp],
            ["Upload failed! " ++ errText e], 1⟩ := rfl
    rw [h1, hsp]
  · intro msg htool
    subst htool
    rfl

/-- Claim C6 witness: the trace of a successful upload of the fixed
sample. -/
theorem C6_trace_shape_witness :
    upload ("f.csv") (.ok walrusSampleNewlyCreated) =
      ⟨1, ["Uploading to Walrus Testnet: f.csv",
           stringifyFinal (mkStrReceipt ("b64:ABC123") ("0xDEAD"))], [], 0⟩ ∧
    stringifyFinal (mkStrReceipt ("b64:ABC123") ("0xDEAD")) =
      stringifyJson (.obj [("blobId", .str ("b64:ABC123")), ("objectId", .str ("0xDEAD")),
        ("walrusURL", .str ("https://walruscan.com/testnet/blob/b64:ABC123")),
        ("objectURL", .str ("https://walruscan.com/testnet/object/0xDEAD"))]) :=
  (C6_trace_shape ("f.csv") (.ok walrusSampleNewlyCreated)).1
    walrusSampleNewlyCreated (mkStrReceipt ("b64:ABC123") ("0xDEAD"))
    "b64:ABC123" "0xDEAD" rfl (by rfl) rfl rfl

theorem parseWalrus_ok_urls (j : Json) (r : Receipt) (h : parseWalrus j = .ok r) :
    r.walrusURL = "https://walruscan.com/testnet/blob/" ++ jsToStr r.blobId ∧
    r.objectURL = "https://walruscan.com/testnet/object/" ++ jsToStr r.objectId := by
  simp only [parseWalrus] at h
  cases h1 : jsGet (jsIndex0 j) "blobStoreResult" with
  | error e => rw [h1, excBindErr] at h; exact absurd h (by simp)
  | ok result =>
    rw [h1, excBindOk] at h
    cases h2 : jsGet result ("newlyCreated") with
    | error e => rw [h2, excBindErr] at h; exact absurd h (by simp)
    | ok nc =>
      rw [h2, excBindOk] at h
      by_cases ht : truthy nc = true
      · rw [if_pos ht] at h
        cases h3 : jsGet nc ("blobObject") with
        | error e => rw [h3, excBindErr] at h; exact absurd h (by simp)
        | ok x =>
          rw [h3, excBindOk] at h
          cases h4 : jsGet x ("blobId") with
          | error e => rw [h4, excBindErr] at h; exact absurd h (by simp)
          | ok b =>
            rw [h4, excBindOk] at h
            cases h5 : jsGet x ("id") with
            | error e => rw [h5, excBindErr] at h; exact absurd h (by simp)
            | ok o =>
              rw [h5, excBindOk] at h
              have hr : (⟨b, o, "https://walruscan.com/testnet/blob/" ++ jsToStr b,
                  "https://walruscan.com/testnet/object/" ++ jsToStr o⟩ : Receipt) = r := by
                have := h
                simp only [pure, Except.pure] at this
                exact Except.ok.inj this
              rw [← hr]
              exact ⟨rfl, rfl⟩
      · rw [if_neg ht] at h
        exact absurd h (by simp)

/-- Claim C9, amended: every successful store call yields a receipt whose
two URLs are non-empty and templated from the id values; the id fields
themselves are taken verbatim from the parsed blob object and are not
validated for non-emptiness.  Failure produces no receipt by construction
of the result type. -/
theorem C9_receipt_urls (raw : String) (r : Receipt)
    (h : storePipeline raw = .ok r) :
    r.walrusURL = "https://walruscan.com/testnet/blob/" ++ jsToStr r.blobId ∧
    r.objectURL = "https://walruscan.com/testnet/object/" ++ jsToStr r.objectId ∧
    r.walrusURL ≠ "" ∧ r.objectURL ≠ "" := by
  have hex : ∃ j, parseWalrus j = .ok r := by
    unfold storePipeline at h
    cases hej : extractJson raw.data with
    | error e => rw [hej] at h; exact absurd h (by simp)
    | ok j => rw [hej] at h; exact ⟨j, h⟩
  obtain ⟨j, hpw⟩ := hex
  obtain ⟨hw, ho⟩ := parseWalrus_ok_urls j r hpw
  refine ⟨hw, ho, ?_, ?_⟩
  · rw [hw]; exact append_ne_empty _ _ (by decide)
  · rw [ho]; exact append_ne_empty _ _ (by decide)

/-- Claim C9 witness: the receipt of the fixed sample satisfies the URL
shape and non-emptiness. -/
theorem C9_receipt_urls_witness :
    (mkStrReceipt ("b64:ABC123") ("0xDEAD")).walrusURL =
      "https://walruscan.com/testnet/blob/" ++
        jsToStr (mkStrReceipt ("b64:ABC123") ("0xDEAD")).blobId ∧
    (mkStrReceipt ("b64:ABC123") ("0xDEAD")).objectURL =
      "https://walruscan.com/testnet/object/" ++
        jsToStr (mkStrReceipt ("b64:ABC123") ("0xDEAD")).objectId ∧
    (mkStrReceipt ("b64:ABC123") ("0xDEAD")).walrusURL ≠ "" ∧
    (mkStrReceipt ("b64:ABC123") ("0xDEAD")).objectURL ≠ "" :=
  C9_receipt_urls walrusSampleNewlyCreated (mkStrReceipt ("b64:ABC123") ("0xDEAD")) (by rfl)

/-- Claim C9 counterexample: a newly-created result with empty-string ids
produces a successful receipt whose blobId is empty, refuting the claim
that all four fields of every successful receipt are non-empty. -/
theorem C9_counterexample :
    ¬ (∀ (raw : String) (r : Receipt), storePipeline raw = .ok r →
        ∃ bs os : String, r.blobId = .json (.str bs) ∧ r.objectId = .json (.str os) ∧
          bs ≠ "" ∧ os ≠ "") := by
  intro hcl
  obtain ⟨bs, os, hb, ho, hbn, hon⟩ :=
    hcl sampleEmptyIds (mkStrReceipt ("") ("")) (by rfl)
  have hbs : ("" : String) = bs := by
    injection hb with h1
    injection h1
  exact hbn hbs.symm

theorem safeChar_props {c : Char} (h : safeChar c = true) :
    c ≠ '"' ∧ c ≠ '\\' ∧ c ≠ ']' ∧ ¬ c.toNat < 32 := by
  simp [safeChar] at h
  obtain ⟨⟨⟨h1, h2⟩, h3⟩, h4⟩ := h
  exact ⟨h1, h2, h3, by omega⟩

theorem psb_safe (b rest : List Char) (hb : ∀ c ∈ b, safeChar c = true) :
    parseStrBody (b ++ '"' :: rest) = some (b, rest) := by
  induction b with
  | nil =>
    rw [List.nil_append, parseStrBody.eq_def]
    simp
  | cons c cs ih =>
    obtain ⟨h1, h2, _, h4⟩ := safeChar_props (hb c (by simp))
    rw [List.cons_append, parseStrBody.eq_def]
    dsimp only
    rw [if_neg h1, if_neg h2, if_neg h4]
    rw [ih (fun x hx => hb x (by simp [hx]))]
    rfl

theorem parseVal_str (f : Nat) (b rest : List Char)
    (hb : ∀ c ∈ b, safeChar c = true) :
    parseVal (f + 1) ('"' :: (b ++ '"' :: rest)) = some (.str ⟨b⟩, rest) := by
  rw [parseVal.eq_def]
  dsimp only [List.dropWhile]
  rw [show isJsonWs '"' = false from rfl]
  simp only [if_neg (show ('"' : Char) ≠ '[' from by decide),
    if_neg (show ('"' : Char) ≠ '\x7b' from by decide), if_pos rfl]
  rw [psb_safe b rest hb]
  rfl

theorem dropWhileWs_nonws {c : Char} (l : List Char) (h : isJsonWs c = false) :
    (c :: l).dropWhile isJsonWs = c :: l :=
  List.dropWhile_cons_of_neg (by simp [h])

theorem optBindSome {a b : Type} (x : a) (f : a → Option b) :
    (some x >>= f : Option b) = f x := rfl

theorem psb_cons (c : Char) (l : List Char) (h1 : c ≠ '"') (h2 : c ≠ '\\')
    (h3 : ¬ c.toNat < 32) :
    parseStrBody (c :: l) = (parseStrBody l).map (fun p => (c :: p.1, p.2)) := by
  rw [parseStrBody.eq_def]
  dsimp only
  rw [if_neg h1, if_neg h2, if_neg h3]

theorem psb_quote (l : List Char) : parseStrBody ('"' :: l) = some ([], l) := by
  rw [parseStrBody.eq_def]
  dsimp only
  rw [if_pos rfl]

theorem optMapSome {a b : Type} (x : a) (f : a → b) :
    Option.map f (some x) = some (f x) := rfl

theorem parseVal_objD (f : Nat) (b o rest : List Char)
    (hb : ∀ c ∈ b, safeChar c = true) (ho : ∀ c ∈ o, safeChar c = true) :
    parseVal (f + 2) (objDList b o rest) =
      some (.obj [("blobId", .str ⟨b⟩), ("id", .str ⟨o⟩)], rest) := by
  simp only [objDList, List.cons_append, List.append_assoc, List.nil_append]
  rw [parseVal.eq_def]
  dsimp only
  rw [dropWhileWs_nonws _ (by decide)]
  dsimp only
  rw [if_neg (by decide), if_pos rfl]
  rw [dropWhileWs_nonws _ (by decide)]
  dsimp only
  rw [if_neg (by decide)]
  rw [parseMembersAux.eq_def]
  dsimp only
  rw [if_pos rfl]
  rw [psb_cons _ _ (by decide) (by decide) (by decide)]
  rw [psb_cons _ _ (by decide) (by decide) (by decide)]
  rw [psb_cons _ _ (by decide) (by decide) (by decide)]
  rw [psb_cons _ _ (by decide) (by decide) (by decide)]
  rw [psb_cons _ _ (by decide) (by decide) (by decide)]
  rw [psb_cons _ _ (by decide) (by decide) (by decide)]
  rw [psb_quote]
  simp only [optMapSome, optBindSome]
  rw [dropWhileWs_nonws _ (by decide)]
  dsimp only
  rw [if_pos rfl]
  rw [dropWhileWs_nonws _ (by decide)]
  rw [parseVal_str f b _ hb, optBindSome]
  rw [dropWhileWs_nonws _ (by decide)]
  dsimp only
  rw [if_pos rfl]
  rw [dropWhileWs_nonws _ (by decide)]
  rw [parseMembersAux.eq_def]
  dsimp only
  rw [if_pos rfl]
  rw [psb_cons _ _ (by decide) (by decide) (by decide)]
  rw [psb_cons _ _ (by decide) (by decide) (by decide)]
  rw [psb_quote]
  simp only [optMapSome, optBindSome]
  rw [dropWhileWs_nonws _ (by decide)]
  dsimp only
  rw [if_pos rfl]
  rw [dropWhileWs_nonws _ (by decide)]
  rw [parseVal_str f o _ ho, optBindSome]
  rw [dropWhileWs_nonws _ (by decide)]
  dsimp only
  rw [if_neg (by decide), if_pos rfl]
  rfl

theorem dropWhileWs_objDList (b o X : List Char) :
    (objDList b o X).dropWhile isJsonWs = objDList b o X := by
  simp only [objDList]
  exact dropWhileWs_nonws _ (by decide)

theorem dropWhileWs_objCList (b o X : List Char) :
    (objCList b o X).dropWhile isJsonWs = objCList b o X := by
  simp only [objCList]
  exact dropWhileWs_nonws _ (by decide)

theorem dropWhileWs_objBList (b o X : List Char) :
    (objBList b o X).dropWhile isJsonWs = objBList b o X := by
  simp only [objBList]
  exact dropWhileWs_nonws _ (by decide)

theorem parseVal_objC (f : Nat) (b o rest : List Char)
    (hb : ∀ c ∈ b, safeChar c = true) (ho : ∀ c ∈ o, safeChar c = true) :
    parseVal (f + 3) (objCList b o rest) =
      some (.obj [("blobObject",
        .obj [("blobId", .str ⟨b⟩), ("id", .str ⟨o⟩)])], rest) := by
  simp only [objCList, List.cons_append, List.nil_append]
  rw [parseVal.eq_def]
  dsimp only
  rw [dropWhileWs_nonws _ (by decide)]
  dsimp only
  rw [if_neg (by decide), if_pos rfl]
  rw [dropWhileWs_nonws _ (by decide)]
  dsimp only
  rw [if_neg (by decide)]
  rw [parseMembersAux.eq_def]
  dsimp only
  rw [if_pos rfl]
  rw [psb_cons _ _ (by decide) (by decide) (by decide)]
  rw [psb_cons _ _ (by decide) (by decide) (by decide)]
  rw [psb_cons _ _ (by decide) (by decide) (by decide)]
  rw [psb_cons _ _ (by decide) (by decide) (by decide)]
  rw [psb_cons _ _ (by decide) (by decide) (by decide)]
  rw [psb_cons _ _ (by decide) (by decide) (by decide)]
  rw [psb_cons _ _ (by decide) (by decide) (by decide)]
  rw [psb_cons _ _ (by decide) (by decide) (by decide)]
  rw [psb_cons _ _ (by decide) (by decide) (by decide)]
  rw [psb_cons _ _ (by decide) (by decide) (by decide)]
  rw [psb_quote]
  simp only [optMapSome, optBindSome]
  rw [dropWhileWs_nonws _ (by decide)]
  dsimp only
  rw [if_pos rfl]
  rw [dropWhileWs_objDList]
  rw [parseVal_objD f b o _ hb ho, optBindSome]
  rw [dropWhileWs_nonws _ (by decide)]
  dsimp only
  rw [if_neg (by decide), if_pos rfl]
  rfl

theorem parseVal_objB (f : Nat) (b o rest : List Char)
    (hb : ∀ c ∈ b, safeChar c = true) (ho : ∀ c ∈ o, safeChar c = true) :
    parseVal (f + 4) (objBList b o rest) =
      some (.obj [("newlyCreated", .obj [("blobObject",
        .obj [("blobId", .str ⟨b⟩), ("id", .str ⟨o⟩)])])], rest) := by
  simp only [objBList, List.cons_append, List.nil_append]
  rw [parseVal.eq_def]
  dsimp only
  rw [dropWhileWs_nonws _ (by decide)]
  dsimp only
  rw [if_neg (by decide), if_pos rfl]
  rw [dropWhileWs_nonws _ (by decide)]
  dsimp only
  rw [if_neg (by decide)]
  rw [parseMembersAux.eq_def]
  dsimp only
  rw [if_pos rfl]
  rw [psb_cons _ _ (by decide) (by decide) (by decide)]
  rw [psb_cons _ _ (by decide) (by decide) (by decide)]
  rw [psb_cons _ _ (by decide) (by decide) (by decide)]
  rw [psb_cons _ _ (by decide) (by decide) (by decide)]
  rw [psb_cons _ _ (by decide) (by decide) (by decide)]
  rw [psb_cons _ _ (by decide) (by decide) (by decide)]
  rw [psb_cons _ _ (by decide) (by decide) (by decide)]
  rw [psb_cons _ _ (by decide) (by decide) (by decide)]
  rw [psb_cons _ _ (by decide) (by decide) (by decide)]
  rw [psb_cons _ _ (by decide) (by decide) (by decide)]
  rw [psb_cons _ _ (by decide) (by decide) (by decide)]
  rw [psb_cons _ _ (by decide) (by decide) (by decide)]
  rw [psb_quote]
  simp only [optMapSome, optBindSome]
  rw [dropWhileWs_nonws _ (by decide)]
  dsimp only
  rw [if_pos rfl]
  rw [dropWhileWs_objCList]
  rw [parseVal_objC f b o _ hb ho, optBindSome]
  rw [dropWhileWs_nonws _ (by decide)]
  dsimp only
  rw [if_neg (by decide), if_pos rfl]
  rfl

theorem parseVal_objA (f : Nat) (b o rest : List Char)
    (hb : ∀ c ∈ b, safeChar c = true) (ho : ∀ c ∈ o, safeChar c = true) :
    parseVal (f + 5) (objAList b o rest) =
      some (.obj [("blobStoreResult", .obj [("newlyCreated", .obj [("blobObject",
        .obj [("blobId", .str ⟨b⟩), ("id", .str ⟨o⟩)])])])], rest) := by
  simp only [objAList, List.cons_append, List.nil_append]
  rw [parseVal.eq_def]
  dsimp only
  rw [dropWhileWs_nonws _ (by decide)]
  dsimp only
  rw [if_neg (by decide), if_pos rfl]
  rw [dropWhileWs_nonws _ (by decide)]
  dsimp only
  rw [if_neg (by decide)]
  rw [parseMembersAux.eq_def]
  dsimp only
  rw [if_pos rfl]
  rw [psb_cons _ _ (by decide) (by decide) (by decide)]
  rw [psb_cons _ _ (by decide) (by decide) (by decide)]
  rw [psb_cons _ _ (by decide) (by decide) (by decide)]
  rw [psb_cons _ _ (by decide) (by decide) (by decide)]
  rw [psb_cons _ _ (by decide) (by decide) (by decide)]
  rw [psb_cons _ _ (by decide) (by decide) (by decide)]
  rw [psb_cons _ _ (by decide) (by decide) (by decide)]
  rw [psb_cons _ _ (by decide) (by decide) (by decide)]
  rw [psb_cons _ _ (by decide) (by decide) (by decide)]
  rw [psb_cons _ _ (by decide) (by decide) (by decide)]
  rw [psb_cons _ _ (by decide) (by decide) (by decide)]
  rw [psb_cons _ _ (by decide) (by decide) (by decide)]
  rw [psb_cons _ _ (by decide) (by decide) (by decide)]
  rw [psb_cons _ _ (by decide) (by decide) (by decide)]
  rw [psb_cons _ _ (by decide) (by decide) (by decide)]
  rw [psb_quote]
  simp only [optMapSome, optBindSome]
  rw [dropWhileWs_nonws _ (by decide)]
  dsimp only
  rw [if_pos rfl]
  rw [dropWhileWs_objBList]
  rw [parseVal_objB f b o _ hb ho, optBindSome]
  rw [dropWhileWs_nonws _ (by decide)]
  dsimp only
  rw [if_neg (by decide), if_pos rfl]
  rfl

theorem objAList_cons (b o X : List Char) :
    objAList b o X =
      '\x7b' :: ('"' :: ("blobStoreResult".data ++ '"' :: ':' ::
        objBList b o ('\x7d' :: X))) := rfl

theorem parseVal_core (f : Nat) (b o rest : List Char)
    (hb : ∀ c ∈ b, safeChar c = true) (ho : ∀ c ∈ o, safeChar c = true) :
    parseVal (f + 6) (coreChars b o ++ rest) = some (coreJson b o, rest) := by
  have hshift : coreChars b o ++ rest = '[' :: objAList b o (']' :: rest) := by
    simp [coreChars, objAList, objBList, objCList, objDList,
      List.cons_append, List.append_assoc]
  rw [hshift]
  rw [parseVal.eq_def]
  dsimp only
  rw [dropWhileWs_nonws _ (by decide)]
  dsimp only
  rw [if_pos rfl]
  rw [objAList_cons]
  rw [dropWhileWs_nonws _ (by decide)]
  dsimp only
  rw [if_neg (by decide)]
  rw [parseSeqAux.eq_def]
  dsimp only
  rw [← objAList_cons]
  rw [parseVal_objA f b o _ hb ho, optBindSome]
  rw [dropWhileWs_nonws _ (by decide)]
  dsimp only
  rw [if_neg (by decide), if_pos rfl]
  rfl

theorem coreChars_append (b o q : List Char) :
    coreChars b o ++ q = '[' :: objAList b o (']' :: q) := by
  simp [coreChars, objAList, objBList, objCList, objDList,
    List.cons_append, List.append_assoc]

theorem coreChars_flat (b o : List Char) :
    coreChars b o = coreA ++ (b ++ (coreB ++ (o ++ coreC))) := by
  simp [coreChars, objAList, objBList, objCList, objDList, coreA, coreB, coreC,
    List.cons_append, List.append_assoc]

theorem coreA_cons : coreA = '[' :: '\x7b' :: coreA.drop 2 := rfl

theorem coreChars_len5 (b o : List Char) : 5 ≤ (coreChars b o).length := by
  simp only [coreChars, objAList, List.length_cons, List.length_append]
  omega

theorem headMatchLen_ne {c : Char} (l : List Char) (h : c ≠ '[') :
    headMatchLen (c :: l) = none := by
  rw [headMatchLen.eq_def]
  dsimp only
  rw [if_neg h]

theorem findStart_append (xs : List Char) (rest : List Char)
    (hxs : ∀ c ∈ xs, c ≠ '[') :
    findStart (xs ++ rest) = findStart rest := by
  induction xs with
  | nil => rw [List.nil_append]
  | cons c cs ih =>
    rw [List.cons_append, findStart.eq_def]
    dsimp only
    rw [headMatchLen_ne _ (hxs c (by simp))]
    dsimp only [Option.isSome]
    rw [if_neg (by simp)]
    exact ih (fun x hx => hxs x (by simp [hx]))

theorem headMatchLen_core (b o q : List Char) :
    headMatchLen ('[' :: objAList b o (']' :: q)) = some 2 := by
  rw [headMatchLen.eq_def]
  dsimp only
  rw [if_pos rfl]
  rw [objAList_cons]
  rw [List.dropWhile_cons_of_neg (by decide), List.takeWhile_cons_of_neg (by decide)]
  dsimp only
  rw [if_pos rfl]
  rfl

theorem findStart_core (p b o q : List Char) (hp : ∀ c ∈ p, c ≠ '[') :
    findStart (p ++ ('[' :: objAList b o (']' :: q))) =
      some ('[' :: objAList b o (']' :: q)) := by
  rw [findStart_append p _ hp]
  rw [findStart.eq_def]
  dsimp only
  rw [headMatchLen_core]
  rfl

theorem endRevAux_append (xs ys : List Char) (hxs : ∀ c ∈ xs, c ≠ ']') :
    endRevAux (xs ++ ys) = (endRevAux ys).map (· + xs.length) := by
  induction xs with
  | nil =>
    rw [List.nil_append]
    cases endRevAux ys with
    | none => rfl
    | some n => simp
  | cons c cs ih =>
    rw [List.cons_append, endRevAux.eq_def]
    dsimp only
    rw [if_neg (hxs c (by simp))]
    rw [ih (fun x hx => hxs x (by simp [hx]))]
    cases endRevAux ys with
    | none => rfl
    | some n => simp; omega

theorem endRevAux_closer (X : List Char) :
    endRevAux (']' :: '\x7d' :: X) = some 0 := by
  rw [endRevAux.eq_def]
  dsimp only
  rw [if_pos rfl]
  rw [List.dropWhile_cons_of_neg (by decide)]
  dsimp only
  rw [if_pos rfl]

theorem drop2_core (b o q : List Char) :
    (coreChars b o ++ q).drop 2 =
      coreA.drop 2 ++ (b ++ (coreB ++ (o ++ (coreC ++ q)))) := by
  rw [coreChars_flat, coreA_cons]
  simp [List.cons_append, List.append_assoc]

theorem rev_drop2_core (b o q : List Char) :
    ((coreChars b o ++ q).drop 2).reverse =
      q.reverse ++ (']' :: '\x7d' :: '\x7d' :: '\x7d' :: '\x7d' :: '"' ::
        (o.reverse ++ (coreB.reverse ++ (b.reverse ++ (coreA.drop 2).reverse)))) := by
  rw [drop2_core]
  simp only [List.reverse_append]
  rw [show coreC.reverse = [']', '\x7d', '\x7d', '\x7d', '\x7d', '"'] from rfl]
  simp [List.append_assoc, List.cons_append]

theorem endRev_core (b o q : List Char) (hq : ∀ c ∈ q, c ≠ ']') :
    endRevAux (((coreChars b o ++ q).drop 2).reverse) = some q.length := by
  rw [rev_drop2_core]
  rw [endRevAux_append q.reverse _ (fun c hc => hq c (List.mem_reverse.mp hc))]
  rw [endRevAux_closer]
  simp

theorem extract_core (p q b o : List Char)
    (hp : ∀ c ∈ p, c ≠ '[') (hq : ∀ c ∈ q, c ≠ ']') :
    extractBlock (p ++ (coreChars b o ++ q)) = some (coreChars b o) := by
  unfold extractBlock
  rw [show p ++ (coreChars b o ++ q) = p ++ ('[' :: objAList b o (']' :: q)) from
    by rw [coreChars_append]]
  rw [findStart_core p b o q hp]
  dsimp only
  rw [headMatchLen_core]
  dsimp only
  rw [show ('[' :: objAList b o (']' :: q)) = coreChars b o ++ q from
    (coreChars_append b o q).symm]
  rw [endRev_core b o q hq]
  dsimp only
  have h5 := coreChars_len5 b o
  have harith : 2 + (((coreChars b o ++ q).drop 2).length - q.length) =
      (coreChars b o).length := by
    simp [List.length_drop, List.length_append]
    omega
  rw [harith, List.take_left]

theorem jsonParse_core (b o : List Char)
    (hb : ∀ c ∈ b, safeChar c = true) (ho : ∀ c ∈ o, safeChar c = true) :
    jsonParse (coreChars b o) = some (coreJson b o) := by
  unfold jsonParse
  have h5 := coreChars_len5 b o
  have h6 : (coreChars b o).length + 1 = ((coreChars b o).length - 5) + 6 := by
    omega
  have hc := parseVal_core ((coreChars b o).length - 5) b o [] hb ho
  rw [List.append_nil] at hc
  rw [h6, hc]
  rfl

theorem parseWalrus_core (b o : List Char) :
    parseWalrus (coreJson b o) = .ok (mkStrReceipt ⟨b⟩ ⟨o⟩) := rfl

/-- Claim C5: for every tool output that wraps a well-formed newly-created
JSON array between log text whose sanitized form opens no array before it
and closes none after it (ANSI colour sequences anywhere, handled by the
stripping stage as the splitting hypothesis states), store strips the
escapes, extracts and parses exactly the first plausible array, and
returns the receipt whose URLs are templated from the two contained
identifiers. -/
theorem C5_ansi_wrapped_success (pre post b o : List Char)
    (hsplit : stripAnsi (pre ++ (coreChars b o ++ post)) =
      stripAnsi pre ++ (coreChars b o ++ stripAnsi post))
    (hpre : ∀ c ∈ stripAnsi pre, c ≠ '[')
    (hpost : ∀ c ∈ stripAnsi post, c ≠ ']')
    (hb : ∀ c ∈ b, safeChar c = true)
    (ho : ∀ c ∈ o, safeChar c = true) :
    storePipeline ⟨pre ++ (coreChars b o ++ post)⟩ =
      .ok (mkStrReceipt ⟨b⟩ ⟨o⟩) := by
  unfold storePipeline
  simp only [extractJson]
  rw [hsplit]
  rw [extract_core _ _ _ _ hpre hpost]
  dsimp only
  rw [jsonParse_core b o hb ho]
  dsimp only
  rw [parseWalrus_core]

set_option maxRecDepth 8192 in
/-- Claim C5 witness: a colourized log line before and after the array,
with concrete identifiers. -/
theorem C5_ansi_wrapped_success_witness :
    storePipeline
        ⟨ansiPre.data ++ (coreChars ("b64:WITNESS").data ("0x123").data ++ ansiPost.data)⟩ =
      .ok (mkStrReceipt ("b64:WITNESS") ("0x123")) :=
  C5_ansi_wrapped_success ansiPre.data ansiPost.data ("b64:WITNESS").data ("0x123").data
    (by decide) (by decide) (by decide) (by decide) (by decide)
